import Mathlib

/-!
Verification of the USFConcierge core against its specification.

The development shallowly embeds the two core modules:

* `src/utils/azure_llm.py` — the LLM client adapter: provider-error
  classification (content filter / jailbreak, deployment-not-found,
  timeout), streamed-fragment extraction, and content normalization.
* `src/utils/database.py` — the persistence gateway (`ChatDatabase`):
  sessions, messages, search, delete.

Dynamic Python values that flow through `azure_llm.py` (error payloads,
response `content` fields) are modelled by the inductive `PyVal` with
Python truthiness.  The remote store behind `ChatDatabase` is reached
through `utils/supabase_client.py`, which is not part of the sources
here; the store is therefore modelled from the spec as an in-memory
pair of tables where `insert` appends a row and `order` is a stable
sort on the requested column (timestamps are modelled as naturals,
ordered exactly as the second-resolution ISO strings the code writes
are).  Store failures are modelled only where a claim is about them
(`delete_session`).
-/

/-- A dynamically typed Python value, as used for provider error bodies and
response content fields: `None`, booleans, integers, strings, lists, dicts
(string-keyed, insertion ordered). -/
inductive PyVal where
  | none : PyVal
  | bool (b : Bool) : PyVal
  | int (n : Int) : PyVal
  | str (s : String) : PyVal
  | list (xs : List PyVal) : PyVal
  | dict (kvs : List (String × PyVal)) : PyVal

/-- Python truthiness: `None`, `False`, `0`, `""`, `[]`, `{}` are falsy,
everything else is truthy. -/
def pyTruthy : PyVal → Bool
  | PyVal.none => false
  | PyVal.bool b => b
  | PyVal.int n => n != 0
  | PyVal.str s => !(s == "")
  | PyVal.list xs => !xs.isEmpty
  | PyVal.dict kvs => !kvs.isEmpty

/-- Python `a or b`: `a` if truthy, else `b`. -/
def pyOr (a b : PyVal) : PyVal := if pyTruthy a then a else b

/-- Python `d.get(key, default)`.  Defined (`some`) only when the receiver is
a dict; on any other value Python raises `AttributeError`, modelled as
`Option.none`. -/
def pyGet (v : PyVal) (key : String) (dflt : PyVal) : Option PyVal :=
  match v with
  | PyVal.dict kvs => some ((kvs.lookup key).getD dflt)
  | _ => Option.none

/-- The single-quote character (codepoint 39). -/
def pySingleQuote : Char := Char.ofNat 39

/-- The double-quote character (codepoint 34). -/
def pyDoubleQuote : Char := Char.ofNat 34

/-- One character of a CPython string repr, escaped for quote character `q`.
Mirrors CPython for the printable-ASCII strings (plus backslash, newline,
carriage return, tab) that occur in this development. -/
def pyReprStrEsc (q : Char) (c : Char) : String :=
  if c = '\\' then "\\\\"
  else if c = q then String.mk ['\\', q]
  else if c = Char.ofNat 10 then "\\n"
  else if c = Char.ofNat 13 then "\\r"
  else if c = Char.ofNat 9 then "\\t"
  else String.singleton c

/-- CPython `repr` of a string: single-quoted, switching to double quotes
when the string contains a single quote but no double quote. -/
def pyReprStr (s : String) : String :=
  let q :=
    if s.toList.contains pySingleQuote && !(s.toList.contains pyDoubleQuote)
    then pyDoubleQuote else pySingleQuote
  String.singleton q ++ String.join (s.toList.map (pyReprStrEsc q)) ++ String.singleton q

mutual

/-- CPython `repr` of a `PyVal`. -/
def pyRepr : PyVal → String
  | PyVal.none => "None"
  | PyVal.bool b => if b then "True" else "False"
  | PyVal.int n => toString n
  | PyVal.str s => pyReprStr s
  | PyVal.list xs => "[" ++ pyReprListBody xs ++ "]"
  | PyVal.dict kvs => "\x7b" ++ pyReprDictBody kvs ++ "\x7d"

/-- Comma-separated reprs of list elements. -/
def pyReprListBody : List PyVal → String
  | [] => ""
  | [x] => pyRepr x
  | x :: y :: rest => pyRepr x ++ ", " ++ pyReprListBody (y :: rest)

/-- Comma-separated `key: value` reprs of dict entries. -/
def pyReprDictBody : List (String × PyVal) → String
  | [] => ""
  | [(k, v)] => pyReprStr k ++ ": " ++ pyRepr v
  | (k, v) :: e :: rest => pyReprStr k ++ ": " ++ pyRepr v ++ ", " ++ pyReprDictBody (e :: rest)

end

/-- Python `str()` of a `PyVal`: identity on strings, `repr` otherwise
(containers render their elements with `repr`). -/
def pyStr : PyVal → String
  | PyVal.str s => s
  | v => pyRepr v

/-- The part-collection loop of `_content_to_text` (azure_llm.py lines
50-57): for each item of the list, a dict contributes its `"text"` value
when that value is truthy, a string contributes itself unconditionally,
anything else is discarded. -/
def contentParts : List PyVal → List PyVal
  | [] => []
  | item :: rest =>
    match item with
    | PyVal.dict kvs =>
      let text := (kvs.lookup "text").getD PyVal.none
      if pyTruthy text then text :: contentParts rest else contentParts rest
    | PyVal.str s => PyVal.str s :: contentParts rest
    | _ => contentParts rest

/-- Python `"".join(parts)`: concatenates when every part is a string,
raises `TypeError` (modelled `Option.none`) otherwise. -/
def joinStrParts : List PyVal → Option String
  | [] => some ""
  | PyVal.str s :: rest => (joinStrParts rest).map (fun r => s ++ r)
  | _ :: _ => Option.none

/-- `_content_to_text` (azure_llm.py lines 46-60).  A plain string is
returned unchanged; for a list, the collected parts are joined when
non-empty; every other case falls through to `str(content or "")`.
`Option.none` models the `TypeError` that `"".join` raises on a non-string
part. -/
def _content_to_text (content : PyVal) : Option String :=
  match content with
  | PyVal.str s => some s
  | PyVal.list items =>
    let parts := contentParts items
    if parts.isEmpty then some (pyStr (pyOr (PyVal.list items) (PyVal.str "")))
    else joinStrParts parts
  | v => some (pyStr (pyOr v (PyVal.str "")))

example : _content_to_text (PyVal.str "hello") = some "hello" := by decide
example : _content_to_text PyVal.none = some "" := by decide
example : _content_to_text (PyVal.list []) = some "" := by decide
example : _content_to_text (PyVal.list [PyVal.str "a", PyVal.str "b"]) = some "ab" := by decide
example : _content_to_text (PyVal.list [PyVal.dict [("type", PyVal.str "image")]])
    = some "[\x7b'type': 'image'\x7d]" := by decide

/-- Outcome of the `BadRequestError` handler shared verbatim by
`stream_chat` (lines 81-105) and `complete_chat` (lines 146-170). -/
inductive BadRequestOutcome where
  | promptInjectionBlocked : BadRequestOutcome
  | contentPolicyBlocked : BadRequestOutcome
  | reraise : BadRequestOutcome

/-- The `except BadRequestError` body of `stream_chat` (azure_llm.py lines
81-105).  `body` is the exception's `body` attribute (`Option.none` when the
attribute is missing, as `getattr(exc, 'body', \x7b\x7d)` allows); the outer
`Option` result is `none` when Python would raise `AttributeError` on a
malformed payload. -/
def stream_chat_on_bad_request (body : Option PyVal) : Option BadRequestOutcome := do
  let error_body := pyOr (body.getD (PyVal.dict [])) (PyVal.dict [])
  let error_detail ← pyGet error_body "error" (PyVal.dict [])
  let error_code ← pyGet error_detail "code" (PyVal.str "")
  let is_content_filter :=
    match error_code with
    | PyVal.str s => s == "content_filter"
    | _ => false
  if is_content_filter then do
    let inner_error ← pyGet error_detail "innererror" (PyVal.dict [])
    let filter_result ← pyGet inner_error "content_filter_result" (PyVal.dict [])
    let jailbreak ← pyGet filter_result "jailbreak" (PyVal.dict [])
    let filtered ← pyGet jailbreak "filtered" PyVal.none
    if pyTruthy filtered then pure BadRequestOutcome.promptInjectionBlocked
    else pure BadRequestOutcome.contentPolicyBlocked
  else pure BadRequestOutcome.reraise

/-- The `except BadRequestError` body of `complete_chat` (azure_llm.py lines
146-170); the code is a line-for-line duplicate of the one in
`stream_chat`. -/
def complete_chat_on_bad_request (body : Option PyVal) : Option BadRequestOutcome := do
  let error_body := pyOr (body.getD (PyVal.dict [])) (PyVal.dict [])
  let error_detail ← pyGet error_body "error" (PyVal.dict [])
  let error_code ← pyGet error_detail "code" (PyVal.str "")
  let is_content_filter :=
    match error_code with
    | PyVal.str s => s == "content_filter"
    | _ => false
  if is_content_filter then do
    let inner_error ← pyGet error_detail "innererror" (PyVal.dict [])
    let filter_result ← pyGet inner_error "content_filter_result" (PyVal.dict [])
    let jailbreak ← pyGet filter_result "jailbreak" (PyVal.dict [])
    let filtered ← pyGet jailbreak "filtered" PyVal.none
    if pyTruthy filtered then pure BadRequestOutcome.promptInjectionBlocked
    else pure BadRequestOutcome.contentPolicyBlocked
  else pure BadRequestOutcome.reraise

/-- A provider rejection payload whose error code is `content_filter`.
`jailbreak` is the nested filter result's jailbreak `filtered` flag:
`some b` when present with boolean value `b`, `Option.none` when absent.
`others` are further per-category entries of the filter result. -/
def contentFilterBody (jailbreak : Option Bool) (others : List (String × PyVal)) : PyVal :=
  PyVal.dict [("error", PyVal.dict
    [ ("code", PyVal.str "content_filter"),
      ("innererror", PyVal.dict
        [("content_filter_result", PyVal.dict
          (("jailbreak", PyVal.dict
            (match jailbreak with
             | some b => [("filtered", PyVal.bool b)]
             | Option.none => [])) :: others))])])]

/-- The exception raised by the transport during the initial
`client.chat.completions.create` call, as caught by the handlers of
`stream_chat` (lines 81-115) and `complete_chat` (lines 146-180):
`BadRequestError` (carrying its `body` attribute), `NotFoundError`, the
timeout error, or any other exception (uncaught, propagates raw). -/
inductive CreateExc where
  | badRequest (body : Option PyVal) : CreateExc
  | notFound : CreateExc
  | timeoutExc : CreateExc
  | otherExc : CreateExc

/-- What a completion operation raises to its caller when the initial
request fails: one of the classified domain errors, the original exception
unchanged, or an `AttributeError` from a malformed rejection payload.
`requestTimeout` carries the configured timeout value (a rational stands in
for the Python float; the handler never computes with it). -/
inductive RaisedError where
  | promptInjectionBlocked : RaisedError
  | contentPolicyBlocked : RaisedError
  | deploymentNotFound (model : String) : RaisedError
  | requestTimeout (timeout : ℚ) : RaisedError
  | streamProcessingError : RaisedError
  | rawReraise : RaisedError
  | attributeError : RaisedError
deriving DecidableEq

/-- The request-phase exception handling of `stream_chat` (azure_llm.py
lines 81-115): classify a `BadRequestError` via the content-filter check,
map `NotFoundError` to the deployment error carrying the model name, map
the timeout error to the timeout message carrying the configured timeout,
and let anything else propagate unchanged. -/
def stream_chat_on_create_exc (e : CreateExc) (model : String) (timeout : ℚ) : RaisedError :=
  match e with
  | CreateExc.badRequest body =>
    match stream_chat_on_bad_request body with
    | some BadRequestOutcome.promptInjectionBlocked => RaisedError.promptInjectionBlocked
    | some BadRequestOutcome.contentPolicyBlocked => RaisedError.contentPolicyBlocked
    | some BadRequestOutcome.reraise => RaisedError.rawReraise
    | Option.none => RaisedError.attributeError
  | CreateExc.notFound => RaisedError.deploymentNotFound model
  | CreateExc.timeoutExc => RaisedError.requestTimeout timeout
  | CreateExc.otherExc => RaisedError.rawReraise

/-- The request-phase exception handling of `complete_chat` (azure_llm.py
lines 146-180), a duplicate of the one in `stream_chat` up to the
`NotFoundError` message text. -/
def complete_chat_on_create_exc (e : CreateExc) (model : String) (timeout : ℚ) : RaisedError :=
  match e with
  | CreateExc.badRequest body =>
    match complete_chat_on_bad_request body with
    | some BadRequestOutcome.promptInjectionBlocked => RaisedError.promptInjectionBlocked
    | some BadRequestOutcome.contentPolicyBlocked => RaisedError.contentPolicyBlocked
    | some BadRequestOutcome.reraise => RaisedError.rawReraise
    | Option.none => RaisedError.attributeError
  | CreateExc.notFound => RaisedError.deploymentNotFound model
  | CreateExc.timeoutExc => RaisedError.requestTimeout timeout
  | CreateExc.otherExc => RaisedError.rawReraise

/-- A streamed delta object: its `content` attribute. -/
structure StreamDelta where
  content : PyVal

/-- A streamed choice: `getattr(choice, "delta", None)` yields `Option.none`
when the delta is absent or `None`. -/
structure StreamChoice where
  delta : Option StreamDelta

/-- A stream event; `getattr(event, "choices", [])` makes an absent
`choices` attribute the empty list, so a plain list models it. -/
structure StreamEvent where
  choices : List StreamChoice

/-- The inner choice loop of `stream_chat`'s drain phase (azure_llm.py
lines 119-122): a fragment is yielded for a choice whose delta is present
and whose `delta.content` is truthy.  Returns the fragments yielded and
whether an exception escaped (a `TypeError` from `_content_to_text`, which
the surrounding `except Exception` turns into the stream-processing
error). -/
def stream_chat_choices : List StreamChoice → List String × Bool
  | [] => ([], false)
  | c :: rest =>
    match c.delta with
    | some d =>
      if pyTruthy d.content then
        match _content_to_text d.content with
        | some s =>
          let (fs, e) := stream_chat_choices rest
          (s :: fs, e)
        | Option.none => ([], true)
      else stream_chat_choices rest
    | Option.none => stream_chat_choices rest

/-- The drain loop of `stream_chat` (azure_llm.py lines 117-126) over a
finite event sequence: the fragments yielded in order, and whether the
`except Exception` handler fired (raising the stream-processing
`RuntimeError`) cutting the stream short. -/
def stream_chat_fragments : List StreamEvent → List String × Bool
  | [] => ([], false)
  | ev :: rest =>
    let (fs, e) := stream_chat_choices ev.choices
    if e then (fs, true)
    else
      let (fs2, e2) := stream_chat_fragments rest
      (fs ++ fs2, e2)

/-- A non-streamed chat message: its `content` attribute. -/
structure RespMessage where
  content : PyVal

/-- A non-streamed completion choice. -/
structure RespChoice where
  message : RespMessage

/-- A non-streamed completion response: its `choices` list. -/
structure ChatResponse where
  choices : List RespChoice

/-- The response phase of `complete_chat` (azure_llm.py lines 181-184):
empty string for zero choices, otherwise the normalized content of the
first choice's message (`Option.none` again modelling a `TypeError` inside
the normalization). -/
def complete_chat_extract (resp : ChatResponse) : Option String :=
  match resp.choices with
  | [] => some ""
  | c :: _ => _content_to_text c.message.content

example : stream_chat_fragments
    [StreamEvent.mk [StreamChoice.mk (some (StreamDelta.mk (PyVal.str "hi"))),
                     StreamChoice.mk (some (StreamDelta.mk (PyVal.str "")))],
     StreamEvent.mk [StreamChoice.mk Option.none],
     StreamEvent.mk [StreamChoice.mk (some (StreamDelta.mk PyVal.none))]]
    = (["hi"], false) := by decide

example : stream_chat_fragments
    [StreamEvent.mk [StreamChoice.mk (some (StreamDelta.mk (PyVal.list [PyVal.str ""])))]]
    = ([""], false) := by decide

/-- A row of the sessions table (database.py `create_session` record shape).
Timestamps are naturals standing for the second-resolution ISO strings the
code writes; their order is the chronological order. -/
structure SessionRow where
  id : String
  user_id : String
  session_name : String
  created_at : Nat
  updated_at : Nat
deriving DecidableEq, Repr

/-- A row of the messages table (database.py `add_message` record shape). -/
structure MessageRow where
  id : String
  session_id : String
  role : String
  content : String
  tokens_in : Option Int
  tokens_out : Option Int
  created_at : Nat
deriving DecidableEq, Repr

/-- Modelled from the spec: the remote store behind
`utils/supabase_client.py` (not under src/), reduced to the two tables the
claims touch.  `insert` appends a row; `order` is a stable sort on the
requested column (insertion sort); filtered `select`/`delete` act row-wise. -/
structure DB where
  sessions : List SessionRow
  messages : List MessageRow
deriving DecidableEq, Repr

/-- `ChatDatabase.get_user_sessions` (database.py lines 53-65): the user's
session rows ordered by `updated_at` descending. -/
def get_user_sessions (db : DB) (user_id : String) : List SessionRow :=
  List.insertionSort (fun a b : SessionRow => b.updated_at ≤ a.updated_at)
    (db.sessions.filter (fun s => s.user_id == user_id))

/-- `ChatDatabase.get_session` (database.py lines 67-80): `select` filtered
on `id` with `limit 1`, returning the first row or `None`. -/
def get_session (db : DB) (session_id : String) : Option SessionRow :=
  (db.sessions.filter (fun s => s.id == session_id)).head?

/-- `ChatDatabase.rename_session` (database.py lines 82-91): update name and
`updated_at` on every row matching the id, return `True`.  (The `except`
path returning `False` is a store failure; the store is modelled as
reliable here since no claim concerns rename failure.) -/
def rename_session (db : DB) (session_id new_name : String) (now : Nat) : Bool × DB :=
  (true,
   { db with sessions := db.sessions.map (fun s =>
      if s.id == session_id then { s with session_name := new_name, updated_at := now } else s) })

/-- `ChatDatabase.delete_session` (database.py lines 93-99): delete the
messages, then the session row, inside one `try` whose `except` logs and
returns.  The two flags say whether each store delete raises; a raise on
the first call leaves both tables untouched, a raise on the second leaves
the session row after the messages are already gone.  The function is
total into `DB` and returns no success indicator, mirroring the `None`
return on every path. -/
def delete_session (db : DB) (session_id : String)
    (messages_delete_fails session_delete_fails : Bool) : DB :=
  if messages_delete_fails then db
  else
    let db1 : DB := { db with messages := db.messages.filter (fun m => !(m.session_id == session_id)) }
    if session_delete_fails then db1
    else { db1 with sessions := db1.sessions.filter (fun s => !(s.id == session_id)) }

/-- `ChatDatabase.get_session_messages` (database.py lines 102-114): the
session's message rows ordered by `created_at` ascending. -/
def get_session_messages (db : DB) (session_id : String) : List MessageRow :=
  List.insertionSort (fun a b : MessageRow => a.created_at ≤ b.created_at)
    (db.messages.filter (fun m => m.session_id == session_id))

/-- `ChatDatabase.add_message` (database.py lines 116-143): insert the
message row stamped `created_at = now`, then bump the parent session's
`updated_at` to the same `now`, returning the fresh message id.  `mid` is
the generated uuid and `now` the clock reading, both inputs of the model. -/
def add_message (db : DB) (session_id role content : String)
    (tokens_in tokens_out : Option Int) (mid : String) (now : Nat) : Option String × DB :=
  let record : MessageRow :=
    { id := mid, session_id := session_id, role := role, content := content,
      tokens_in := tokens_in, tokens_out := tokens_out, created_at := now }
  let db1 : DB := { db with messages := db.messages ++ [record] }
  let db2 : DB := { db1 with sessions := db1.sessions.map (fun s =>
      if s.id == session_id then { s with updated_at := now } else s) }
  (some mid, db2)

/-- Python `str.lower()` on the ASCII strings of this development. -/
def pyLower (s : String) : String := String.mk (s.toList.map Char.toLower)

/-- Modelled from the spec: `escape_sql_like` from `utils/security.py` (not
under src/); the spec requires the query text to be escaped against the
pattern-matching operator's special characters, so the SQL LIKE wildcards
`%` and `_` and the escape character itself are backslash-escaped. -/
def escape_sql_like (s : String) : String :=
  String.mk (s.toList.foldr
    (fun c acc => if c = '%' ∨ c = '_' ∨ c = '\\' then '\\' :: c :: acc else c :: acc) [])

/-- Whether `needle` is a prefix of `hay` (character lists, Python string
comparison). -/
def charsStartWith : List Char → List Char → Bool
  | [], _ => true
  | _ :: _, [] => false
  | c :: cs, d :: ds => c == d && charsStartWith cs ds

/-- Python substring test `needle in hay` on character lists. -/
def charsContain : List Char → List Char → Bool
  | n, [] => n.isEmpty
  | n, c :: t => charsStartWith n (c :: t) || charsContain n t

/-- Python `needle in hay` for strings. -/
def pyInStr (needle hay : String) : Bool := charsContain needle.toList hay.toList

/-- Modelled from the spec: the store's LIKE pattern matcher (the `ilike`
filter is executed by the remote store, not by code under src/).  `%`
matches any run, `_` one character, a backslash escapes the next pattern
character.  Fuel-indexed so the definition is structural (the fuel in
`likeMatch` always suffices). -/
def likeMatchF : Nat → List Char → List Char → Bool
  | 0, _, _ => false
  | Nat.succ f, p, t =>
    match p, t with
    | [], [] => true
    | [], _ :: _ => false
    | '%' :: ps, [] => likeMatchF f ps []
    | '%' :: ps, c :: ts => likeMatchF f ps (c :: ts) || likeMatchF f ('%' :: ps) ts
    | '_' :: _, [] => false
    | '_' :: ps, _ :: ts => likeMatchF f ps ts
    | '\\' :: [], _ :: _ => false
    | '\\' :: _ :: _, [] => false
    | '\\' :: q :: ps, c :: ts => c == q && likeMatchF f ps ts
    | _ :: _, [] => false
    | q :: ps, c :: ts => c == q && likeMatchF f ps ts

/-- LIKE pattern matching with enough fuel for any derivation (every step
consumes a pattern or a text character). -/
def likeMatch (p t : List Char) : Bool := likeMatchF (p.length + t.length + 1) p t

/-- The store's case-insensitive `ilike(column, pattern)` filter: LIKE on
the lowercased pattern and text. -/
def storeIlike (pattern text : String) : Bool :=
  likeMatch (pyLower pattern).toList (pyLower text).toList

/-- Insertion-ordered Python dict assignment `d[k] = v` for the
`matching_sessions` dict of `search_sessions`. -/
def dictInsert (d : List (String × SessionRow)) (k : String) (v : SessionRow) :
    List (String × SessionRow) :=
  if d.any (fun kv => kv.1 == k) then d.map (fun kv => if kv.1 == k then (k, v) else kv)
  else d ++ [(k, v)]

/-- The non-empty-query body of `ChatDatabase.search_sessions`
(database.py lines 185-213), over the already-fetched session list and the
already-escaped lowercased query `q`: the first pass keeps sessions whose
lowercased name contains `q`, the second issues one store query matching
message content (`ilike` on `%q%`) restricted to the ids not already
matched, and the result is the insertion-ordered dict's values. -/
def search_sessions_core (msgs : List MessageRow) (sessions : List SessionRow) (q : String) :
    List SessionRow :=
  let byName := sessions.foldl
    (fun d s => if pyInStr q (pyLower s.session_name) then dictInsert d s.id s else d) []
  let session_ids := (sessions.filter (fun s => !(byName.any (fun kv => kv.1 == s.id)))).map
    (fun s => s.id)
  let final :=
    if session_ids.isEmpty then byName
    else
      let matched := (msgs.filter (fun m =>
        session_ids.contains m.session_id && storeIlike ("%" ++ q ++ "%") m.content)).map
        (fun m => m.session_id)
      sessions.foldl (fun d s => if matched.contains s.id then dictInsert d s.id s else d) byName
  final.map (fun kv => kv.2)

/-- `ChatDatabase.search_sessions` (database.py lines 180-213).  Empty
query: the full `get_user_sessions` result unmodified.  Otherwise the
query is lowercased and LIKE-escaped once, up front (so the escaped text
is also what the name pass compares against), and the two matching passes
of `search_sessions_core` run on the user's sessions. -/
def search_sessions (db : DB) (user_id query : String) : List SessionRow :=
  let sessions := get_user_sessions db user_id
  if query == "" then sessions
  else search_sessions_core db.messages sessions (escape_sql_like (pyLower query))

example :
    search_sessions (DB.mk [SessionRow.mk "s1" "u1" "50% off" 0 0] []) "u1" "%" = [] := by decide

example :
    search_sessions
      (DB.mk [SessionRow.mk "s1" "u1" "Math Help" 0 2, SessionRow.mk "s2" "u1" "Other" 0 1]
             [MessageRow.mk "m1" "s2" "user" "about MATH stuff" Option.none Option.none 1])
      "u1" "math"
    = [SessionRow.mk "s1" "u1" "Math Help" 0 2, SessionRow.mk "s2" "u1" "Other" 0 1] := by decide

/-- C1: For every provider rejection payload whose error code is
`content_filter`, both completion operations (`stream_chat` and
`complete_chat`) classify the rejection as prompt-injection-blocked when
the nested filter result's jailbreak `filtered` flag is true, and as
content-policy-blocked when that flag is false or absent (whatever other
filter categories the payload carries). -/
theorem c1_content_filter_classification (jb : Option Bool) (others : List (String × PyVal)) :
    stream_chat_on_bad_request (some (contentFilterBody jb others))
      = some (if jb = some true then BadRequestOutcome.promptInjectionBlocked
              else BadRequestOutcome.contentPolicyBlocked) ∧
    complete_chat_on_bad_request (some (contentFilterBody jb others))
      = some (if jb = some true then BadRequestOutcome.promptInjectionBlocked
              else BadRequestOutcome.contentPolicyBlocked) := by
  cases jb with
  | none =>
    simp [stream_chat_on_bad_request, complete_chat_on_bad_request, contentFilterBody,
      pyGet, pyOr, pyTruthy, List.lookup]
  | some b =>
    cases b <;>
      simp [stream_chat_on_bad_request, complete_chat_on_bad_request, contentFilterBody,
        pyGet, pyOr, pyTruthy, List.lookup]

/-- C2: When the transport deadline is exceeded (the timeout exception
from the `create` call), both `stream_chat` and `complete_chat` raise the
classified timeout error carrying the configured timeout value, not the
raw transport exception. -/
theorem c2_timeout_classified (model : String) (timeout : ℚ) :
    stream_chat_on_create_exc CreateExc.timeoutExc model timeout
      = RaisedError.requestTimeout timeout ∧
    complete_chat_on_create_exc CreateExc.timeoutExc model timeout
      = RaisedError.requestTimeout timeout ∧
    RaisedError.requestTimeout timeout ≠ RaisedError.rawReraise :=
  ⟨rfl, rfl, fun h => RaisedError.noConfusion h⟩

/-- C3 counterexample: a non-empty list containing no text-carrying parts
does not normalize to the empty string; `_content_to_text` falls through
to Python `str()` of the whole list. -/
theorem c3_counterexample :
    _content_to_text (PyVal.list [PyVal.dict [("type", PyVal.str "image")]])
      = some "[\x7b'type': 'image'\x7d]" ∧
    _content_to_text (PyVal.list [PyVal.dict [("type", PyVal.str "image")]]) ≠ some "" :=
  ⟨by decide, by decide⟩

/-- C3 amended: `_content_to_text` returns a plain-string content
unchanged; missing (null) content and the empty list normalize to the
empty string; a list with at least one text-carrying part is reduced to
the join of its collected parts; but a *non-empty* list with no
text-carrying parts normalizes to the Python string rendering of the list,
not to the empty string. -/
theorem c3_amended (s : String) (items jtems : List PyVal)
    (hne : (contentParts items).isEmpty = false)
    (hne2 : jtems.isEmpty = false)
    (hparts : (contentParts jtems).isEmpty = true) :
    _content_to_text (PyVal.str s) = some s ∧
    _content_to_text PyVal.none = some "" ∧
    _content_to_text (PyVal.list []) = some "" ∧
    _content_to_text (PyVal.list items) = joinStrParts (contentParts items) ∧
    _content_to_text (PyVal.list jtems) = some (pyStr (PyVal.list jtems)) := by
  refine ⟨rfl, rfl, rfl, ?_, ?_⟩
  · simp [_content_to_text, hne]
  · simp [_content_to_text, hparts, pyOr, pyTruthy, hne2]

/-- C3 amended, witnessed at concrete inputs: a two-part list with texts
`"a"`, `"b"`, and the no-text list `[\x7b'type': 'image'\x7d]`. -/
theorem c3_amended_witness :
    (contentParts [PyVal.str "a", PyVal.dict [("text", PyVal.str "b")]]).isEmpty = false ∧
    ([PyVal.dict [("type", PyVal.str "image")]] : List PyVal).isEmpty = false ∧
    (contentParts [PyVal.dict [("type", PyVal.str "image")]]).isEmpty = true ∧
    (_content_to_text (PyVal.str "hi") = some "hi" ∧
     _content_to_text PyVal.none = some "" ∧
     _content_to_text (PyVal.list []) = some "" ∧
     _content_to_text (PyVal.list [PyVal.str "a", PyVal.dict [("text", PyVal.str "b")]])
       = joinStrParts (contentParts [PyVal.str "a", PyVal.dict [("text", PyVal.str "b")]]) ∧
     _content_to_text (PyVal.list [PyVal.dict [("type", PyVal.str "image")]])
       = some (pyStr (PyVal.list [PyVal.dict [("type", PyVal.str "image")]]))) :=
  ⟨by decide, by decide, by decide,
   c3_amended "hi" [PyVal.str "a", PyVal.dict [("text", PyVal.str "b")]]
     [PyVal.dict [("type", PyVal.str "image")]] (by decide) (by decide) (by decide)⟩

/-- C7: `complete_chat` returns the empty string, not an error, when the
provider response contains zero completion choices. -/
theorem c7_zero_choices_empty_string :
    complete_chat_extract (ChatResponse.mk []) = some "" := rfl

/-- C8: for every store state and user, `search_sessions` with the empty
query returns the full `get_user_sessions` result unmodified. -/
theorem c8_empty_query_returns_all (db : DB) (user_id : String) :
    search_sessions db user_id "" = get_user_sessions db user_id := by
  simp [search_sessions]

/-- C10: `delete_session` is total (every store failure is caught) and
returns no success indicator; a failure of the first delete leaves both
the messages and the session row in place, a failure of the second leaves
the session row after the messages are gone, and only the fully successful
run removes both. -/
theorem c10_delete_session_failure_modes (db : DB) (session_id : String) :
    delete_session db session_id true true = db ∧
    delete_session db session_id true false = db ∧
    delete_session db session_id false true
      = { db with messages := db.messages.filter (fun m => !(m.session_id == session_id)) } ∧
    delete_session db session_id false false
      = DB.mk (db.sessions.filter (fun s => !(s.id == session_id)))
              (db.messages.filter (fun m => !(m.session_id == session_id))) :=
  ⟨rfl, rfl, rfl, rfl⟩

/-- C9 counterexample: a truthy structured delta content with an empty
text part (`[""]`) is not skipped and normalizes to the empty string, so
`stream_chat` yields an empty fragment. -/
theorem c9_counterexample :
    stream_chat_fragments
      [StreamEvent.mk [StreamChoice.mk (some (StreamDelta.mk (PyVal.list [PyVal.str ""])))]]
      = ([""], false) ∧
    ¬ (∀ f ∈ (stream_chat_fragments
        [StreamEvent.mk [StreamChoice.mk (some (StreamDelta.mk (PyVal.list [PyVal.str ""])))]]).1,
        f ≠ "") := by
  refine ⟨by decide, fun h => ?_⟩
  exact h "" (by decide) rfl

/-- A stream event all of whose choices carry plain-string delta contents
(`Option.none` models a missing delta). -/
def strEventOf (cs : List (Option String)) : StreamEvent :=
  StreamEvent.mk (cs.map (fun c => StreamChoice.mk (c.map (fun s => StreamDelta.mk (PyVal.str s)))))

theorem stream_chat_choices_of_strings (cs : List (Option String)) :
    stream_chat_choices
      (cs.map (fun c => StreamChoice.mk (c.map (fun s => StreamDelta.mk (PyVal.str s)))))
      = ((cs.filterMap id).filter (fun s => !(s == "")), false) := by
  induction cs with
  | nil => rfl
  | cons c rest ih =>
    cases c with
    | none => simpa [stream_chat_choices] using ih
    | some s =>
      by_cases hs : s = ""
      · subst hs; simpa [stream_chat_choices, pyTruthy] using ih
      · have hb : (s == "") = false := beq_eq_false_iff_ne.mpr hs
        simp [stream_chat_choices, pyTruthy, _content_to_text, hb, ih]

/-- C9 amended: choices with a missing delta or a falsy content (null or
empty string) are skipped; when every delta content is a plain string the
fragments yielded are exactly the non-empty contents in order, so every
fragment is then non-empty.  (By `c9_counterexample`, a truthy non-string
content can still normalize to an empty fragment.) -/
theorem c9_amended (evs : List (List (Option String))) :
    stream_chat_fragments (evs.map strEventOf)
      = ((evs.flatten.filterMap id).filter (fun s => !(s == "")), false) := by
  induction evs with
  | nil => rfl
  | cons ev rest ih =>
    simp [stream_chat_fragments, strEventOf, stream_chat_choices_of_strings, ih]

/-- One sequential `add_message` call: the generated uuid, the role and
content, and the clock reading at the call. -/
structure MsgEntry where
  mid : String
  role : String
  content : String
  now : Nat
deriving DecidableEq, Repr

/-- The message row `add_message` inserts for an entry. -/
def msgRowOf (session_id : String) (e : MsgEntry) : MessageRow :=
  { id := e.mid, session_id := session_id, role := e.role, content := e.content,
    tokens_in := Option.none, tokens_out := Option.none, created_at := e.now }

/-- N sequential `add_message` calls on one session. -/
def add_messages_seq (db : DB) (session_id : String) (entries : List MsgEntry) : DB :=
  entries.foldl
    (fun d e =>
      (add_message d session_id e.role e.content Option.none Option.none e.mid e.now).2) db

theorem add_messages_seq_messages (session_id : String) :
    ∀ (entries : List MsgEntry) (db : DB),
      (add_messages_seq db session_id entries).messages
        = db.messages ++ entries.map (msgRowOf session_id) := by
  intro entries
  induction entries with
  | nil => intro db; simp [add_messages_seq]
  | cons e rest ih =>
    intro db
    have hstep : add_messages_seq db session_id (e :: rest)
        = add_messages_seq
            ((add_message db session_id e.role e.content Option.none Option.none e.mid e.now).2)
            session_id rest := rfl
    rw [hstep, ih]
    simp [add_message, msgRowOf]

/-- C4: for every store state with no messages yet in the session and
every sequence of `add_message` calls whose clock readings are
nondecreasing (the wall clock never runs backwards), `get_session_messages`
afterwards returns exactly the N inserted rows, in insertion order (the
stable store sort keeps insertion order even for equal second-resolution
timestamps). -/
theorem c4_messages_replay (db : DB) (session_id : String) (entries : List MsgEntry)
    (hfresh : db.messages.filter (fun m => m.session_id == session_id) = [])
    (hmono : (entries.map MsgEntry.now).Pairwise (· ≤ ·)) :
    get_session_messages (add_messages_seq db session_id entries) session_id
      = entries.map (msgRowOf session_id) ∧
    (get_session_messages (add_messages_seq db session_id entries) session_id).length
      = entries.length := by
  have hfilter : ((add_messages_seq db session_id entries).messages).filter
      (fun m => m.session_id == session_id) = entries.map (msgRowOf session_id) := by
    rw [add_messages_seq_messages session_id entries db, List.filter_append, hfresh,
      List.nil_append]
    apply List.filter_eq_self.mpr
    intro m hm
    rcases List.mem_map.mp hm with ⟨e, _, rfl⟩
    simp [msgRowOf]
  have hsorted : List.Sorted (fun a b : MessageRow => a.created_at ≤ b.created_at)
      (entries.map (msgRowOf session_id)) :=
    List.pairwise_map.mpr (List.pairwise_map.mp hmono)
  have hmain : get_session_messages (add_messages_seq db session_id entries) session_id
      = entries.map (msgRowOf session_id) := by
    unfold get_session_messages
    rw [hfilter]
    exact List.Sorted.insertionSort_eq hsorted
  exact ⟨hmain, by rw [hmain, List.length_map]⟩

/-- C4 witnessed at a concrete run: two appends within the same second
(equal timestamps) on a fresh session replay in insertion order. -/
theorem c4_messages_replay_witness :
    (DB.mk [] []).messages.filter (fun m => m.session_id == "s1") = [] ∧
    (([MsgEntry.mk "m1" "user" "2+2?" 10, MsgEntry.mk "m2" "assistant" "4" 10]).map
      MsgEntry.now).Pairwise (· ≤ ·) ∧
    (get_session_messages
        (add_messages_seq (DB.mk [] [])
          "s1" [MsgEntry.mk "m1" "user" "2+2?" 10, MsgEntry.mk "m2" "assistant" "4" 10]) "s1"
      = [MsgEntry.mk "m1" "user" "2+2?" 10, MsgEntry.mk "m2" "assistant" "4" 10].map
          (msgRowOf "s1") ∧
     (get_session_messages
        (add_messages_seq (DB.mk [] [])
          "s1" [MsgEntry.mk "m1" "user" "2+2?" 10, MsgEntry.mk "m2" "assistant" "4" 10]) "s1").length
      = [MsgEntry.mk "m1" "user" "2+2?" 10, MsgEntry.mk "m2" "assistant" "4" 10].length) :=
  ⟨rfl, by decide,
   c4_messages_replay (DB.mk [] []) "s1"
     [MsgEntry.mk "m1" "user" "2+2?" 10, MsgEntry.mk "m2" "assistant" "4" 10]
     rfl (by decide)⟩

theorem get_session_map_id_preserving (db : DB) (session_id : String)
    (f : SessionRow → SessionRow) (hf : ∀ s, (f s).id = s.id) :
    get_session (DB.mk (db.sessions.map f) db.messages) session_id
      = (get_session db session_id).map f := by
  unfold get_session
  show ((db.sessions.map f).filter (fun s => s.id == session_id)).head?
      = Option.map f (db.sessions.filter (fun s => s.id == session_id)).head?
  rw [List.filter_map, List.filter_congr (q := fun s => s.id == session_id)
    (fun x _ => by simp [Function.comp, hf x]), List.head?_map]

/-- C6 counterexample: a rename performed within the same second as the
session's previous update (the code stamps `updated_at` with a
second-resolution timestamp) leaves `updated_at` equal to, not strictly
greater than, its prior value. -/
theorem c6_counterexample :
    ¬ (∀ prior after : SessionRow,
        get_session (DB.mk [SessionRow.mk "s1" "u1" "old" 5 5] []) "s1" = some prior →
        get_session
          (rename_session (DB.mk [SessionRow.mk "s1" "u1" "old" 5 5] []) "s1" "new" 5).2 "s1"
          = some after →
        prior.updated_at < after.updated_at) := by
  intro h
  have h5 := h (SessionRow.mk "s1" "u1" "old" 5 5) (SessionRow.mk "s1" "u1" "new" 5 5)
    (by decide) (by decide)
  exact absurd h5 (by decide)

/-- C6 amended: after a successful `rename_session`, `get_session` reflects
the new name and an `updated_at` equal to the rename timestamp, which is
strictly greater than the prior value exactly when the rename happens at a
strictly later second (timestamps have second resolution, so a same-second
rename leaves `updated_at` unchanged); reads never modify the store (the
read operations are pure functions of the state). -/
theorem c6_amended (db : DB) (session_id new_name : String) (now : Nat) (s0 : SessionRow)
    (h0 : get_session db session_id = some s0) (hlt : s0.updated_at < now) :
    (rename_session db session_id new_name now).1 = true ∧
    get_session (rename_session db session_id new_name now).2 session_id
      = some { s0 with session_name := new_name, updated_at := now } ∧
    s0.updated_at < now := by
  refine ⟨rfl, ?_, hlt⟩
  have hmem : s0 ∈ db.sessions.filter (fun s => s.id == session_id) :=
    List.mem_of_mem_head? (Option.mem_def.mpr h0)
  have hid : (s0.id == session_id) = true := (List.mem_filter.mp hmem).2
  have hmap := get_session_map_id_preserving db session_id
    (fun s => if s.id == session_id
              then { s with session_name := new_name, updated_at := now } else s)
    (by intro s; by_cases h : (s.id == session_id) = true <;> simp [h])
  have hrw : (rename_session db session_id new_name now).2
      = DB.mk (db.sessions.map
          (fun s => if s.id == session_id
                    then { s with session_name := new_name, updated_at := now } else s))
          db.messages := rfl
  have hid' : s0.id = session_id := by simpa using hid
  rw [hrw, hmap, h0]
  simp [hid']

/-- C6 amended, witnessed: renaming at second 6 a session last updated at
second 5 yields the new name and `updated_at = 6 > 5`. -/
theorem c6_amended_witness :
    get_session (DB.mk [SessionRow.mk "s1" "u1" "old" 5 5] []) "s1"
      = some (SessionRow.mk "s1" "u1" "old" 5 5) ∧
    (SessionRow.mk "s1" "u1" "old" 5 5).updated_at < 6 ∧
    ((rename_session (DB.mk [SessionRow.mk "s1" "u1" "old" 5 5] []) "s1" "new" 6).1 = true ∧
     get_session
        (rename_session (DB.mk [SessionRow.mk "s1" "u1" "old" 5 5] []) "s1" "new" 6).2 "s1"
       = some { SessionRow.mk "s1" "u1" "old" 5 5 with session_name := "new", updated_at := 6 } ∧
     (SessionRow.mk "s1" "u1" "old" 5 5).updated_at < 6) :=
  ⟨by decide, by decide,
   c6_amended (DB.mk [SessionRow.mk "s1" "u1" "old" 5 5] []) "s1" "new" 6
     (SessionRow.mk "s1" "u1" "old" 5 5) (by decide) (by decide)⟩

/-- C5 counterexample: the code escapes the query before the *name* pass
too, so a query consisting of the LIKE wildcard `%` fails to match a
session named `50% off` even though that name contains the query text, and
the search returns nothing. -/
theorem c5_counterexample :
    search_sessions (DB.mk [SessionRow.mk "s1" "u1" "50% off" 0 0] []) "u1" "%" = [] ∧
    pyInStr (pyLower "%") (pyLower "50% off") = true ∧
    get_user_sessions (DB.mk [SessionRow.mk "s1" "u1" "50% off" 0 0] []) "u1"
      = [SessionRow.mk "s1" "u1" "50% off" 0 0] :=
  ⟨by decide, by decide, by decide⟩

/-- Whether a session's name matches a query the way the code's first pass
does: the lowercased name contains the lowercased, LIKE-escaped query. -/
def name_matches (query : String) (s : SessionRow) : Bool :=
  pyInStr (escape_sql_like (pyLower query)) (pyLower s.session_name)

/-- Whether some message of the session matches the content pattern the
code's second pass uses: `ilike` on `%` ++ escaped lowercased query ++ `%`. -/
def content_matches (msgs : List MessageRow) (query : String) (s : SessionRow) : Bool :=
  msgs.any (fun m => m.session_id == s.id &&
    storeIlike ("%" ++ escape_sql_like (pyLower query) ++ "%") m.content)

theorem map_snd_idPairs (l : List SessionRow) :
    (l.map (fun s => (s.id, s))).map (fun kv => kv.2) = l := by
  induction l with
  | nil => rfl
  | cons s t ih => simp [ih]

theorem dictInsert_fresh (d : List (String × SessionRow)) (k : String) (v : SessionRow)
    (h : ∀ kv ∈ d, kv.1 ≠ k) : dictInsert d k v = d ++ [(k, v)] := by
  have hany : d.any (fun kv => kv.1 == k) = false := by
    rw [List.any_eq_false]
    intro kv hkv
    simp [h kv hkv]
  simp [dictInsert, hany]

theorem foldl_dictInsert (p : SessionRow → Bool) :
    ∀ (l : List SessionRow) (d : List (String × SessionRow)),
      (∀ s ∈ l, p s = true → ∀ kv ∈ d, kv.1 ≠ s.id) →
      ((l.filter p).map (fun s => s.id)).Nodup →
      l.foldl (fun d s => if p s then dictInsert d s.id s else d) d
        = d ++ (l.filter p).map (fun s => (s.id, s)) := by
  intro l
  induction l with
  | nil => intro d _ _; simp
  | cons s rest ih =>
    intro d hfresh hnd
    by_cases hp : p s = true
    · have hnds : (s.id :: (rest.filter p).map (fun t => t.id)).Nodup := by
        simpa [List.filter_cons, hp] using hnd
      have hd : dictInsert d s.id s = d ++ [(s.id, s)] :=
        dictInsert_fresh d s.id s (fun kv hkv => hfresh s (by simp) hp kv hkv)
      have hfresh' : ∀ t ∈ rest, p t = true → ∀ kv ∈ d ++ [(s.id, s)], kv.1 ≠ t.id := by
        intro t ht hpt kv hkv
        rcases List.mem_append.mp hkv with hkv | hkv
        · exact hfresh t (by simp [ht]) hpt kv hkv
        · have hkv' : kv = (s.id, s) := by simpa using hkv
          subst hkv'
          intro heq
          have hmem : s.id ∈ (rest.filter p).map (fun t => t.id) :=
            List.mem_map.mpr ⟨t, List.mem_filter.mpr ⟨ht, hpt⟩, heq.symm⟩
          exact (List.nodup_cons.mp hnds).1 hmem
      have hstep : (s :: rest).foldl (fun d s => if p s then dictInsert d s.id s else d) d
          = rest.foldl (fun d s => if p s then dictInsert d s.id s else d) (dictInsert d s.id s) := by
        simp [hp]
      rw [hstep, hd, ih (d ++ [(s.id, s)]) hfresh' (List.nodup_cons.mp hnds).2]
      simp [List.filter_cons, hp]
    · have hp' : p s = false := by simpa using hp
      have hstep : (s :: rest).foldl (fun d s => if p s then dictInsert d s.id s else d) d
          = rest.foldl (fun d s => if p s then dictInsert d s.id s else d) d := by
        simp [hp']
      rw [hstep, ih d (fun t ht => hfresh t (by simp [ht])) (by simpa [List.filter_cons, hp'] using hnd)]
      simp [List.filter_cons, hp']

/-- The two passes of `search_sessions_core` produce exactly the
name-matched sessions (in `get_user_sessions` order) followed by the
sessions matched only through message content, provided session ids are
unique (they are store primary keys). -/
theorem search_sessions_core_eq (msgs : List MessageRow) (sessions : List SessionRow) (q : String)
    (hnd : (sessions.map (fun s => s.id)).Nodup) :
    search_sessions_core msgs sessions q
      = sessions.filter (fun s => pyInStr q (pyLower s.session_name))
        ++ sessions.filter (fun s => !(pyInStr q (pyLower s.session_name)) &&
             msgs.any (fun m => m.session_id == s.id && storeIlike ("%" ++ q ++ "%") m.content)) := by
  have hinj := List.inj_on_of_nodup_map hnd
  have nodupOf : ∀ p : SessionRow → Bool, ((sessions.filter p).map (fun s => s.id)).Nodup :=
    fun p => List.Nodup.sublist (List.Sublist.map _ (List.filter_sublist sessions)) hnd
  -- the name pass
  have e1 : sessions.foldl
      (fun d s => if pyInStr q (pyLower s.session_name) then dictInsert d s.id s else d) []
      = (sessions.filter (fun s => pyInStr q (pyLower s.session_name))).map (fun s => (s.id, s)) := by
    rw [foldl_dictInsert (fun s => pyInStr q (pyLower s.session_name)) sessions []
      (fun s _ _ kv hkv => absurd hkv (List.not_mem_nil kv)) (nodupOf _)]
    exact List.nil_append _
  -- the dict keys after the name pass are exactly the name-matched ids
  have hbyName_any : ∀ s ∈ sessions,
      (((sessions.filter (fun s => pyInStr q (pyLower s.session_name))).map
        (fun s => (s.id, s))).any (fun kv => kv.1 == s.id))
      = pyInStr q (pyLower s.session_name) := by
    intro s hs
    rw [Bool.eq_iff_iff, List.any_eq_true]
    constructor
    · rintro ⟨kv, hkv, hbeq⟩
      rcases List.mem_map.mp hkv with ⟨t, htf, rfl⟩
      have hteq : t = s := hinj (List.mem_of_mem_filter htf) hs (by simpa using hbeq)
      subst hteq
      exact (List.mem_filter.mp htf).2
    · intro hname
      exact ⟨(s.id, s), List.mem_map.mpr ⟨s, List.mem_filter.mpr ⟨hs, hname⟩, rfl⟩, by simp⟩
  have hids : sessions.filter (fun s =>
        !(((sessions.filter (fun s => pyInStr q (pyLower s.session_name))).map
          (fun s => (s.id, s))).any (fun kv => kv.1 == s.id)))
      = sessions.filter (fun s => !(pyInStr q (pyLower s.session_name))) :=
    List.filter_congr (fun s hs => by rw [hbyName_any s hs])
  unfold search_sessions_core
  simp only []
  rw [e1, hids]
  cases hfe : ((sessions.filter (fun s => !(pyInStr q (pyLower s.session_name)))).map
      (fun s => s.id)).isEmpty with
  | true =>
    rw [if_pos rfl, map_snd_idPairs]
    have hFnil : sessions.filter (fun s => !(pyInStr q (pyLower s.session_name))) = [] :=
      List.map_eq_nil_iff.mp (List.isEmpty_iff.mp hfe)
    have hBnil : sessions.filter (fun s => !(pyInStr q (pyLower s.session_name)) &&
        msgs.any (fun m => m.session_id == s.id && storeIlike ("%" ++ q ++ "%") m.content)) = [] := by
      rw [List.filter_eq_nil_iff]
      intro a ha hcontra
      exact (List.filter_eq_nil_iff.mp hFnil a ha) ((Bool.and_eq_true _ _).mp hcontra).1
    rw [hBnil, List.append_nil]
  | false =>
    rw [if_neg (by simp)]
    have hE2 : ∀ s ∈ sessions,
        ((List.map (fun m => m.session_id)
          (List.filter (fun m =>
            (List.map (fun s => s.id)
              (List.filter (fun s => !pyInStr q (pyLower s.session_name)) sessions)).contains
                m.session_id
            && storeIlike ("%" ++ q ++ "%") m.content) msgs)).contains s.id)
        = (!pyInStr q (pyLower s.session_name) &&
           msgs.any (fun m => m.session_id == s.id && storeIlike ("%" ++ q ++ "%") m.content)) := by
      intro s hs
      rw [Bool.eq_iff_iff, Bool.and_eq_true]
      constructor
      · intro hc
        have hmem : s.id ∈ List.map (fun m => m.session_id)
            (List.filter (fun m =>
              (List.map (fun s => s.id)
                (List.filter (fun s => !pyInStr q (pyLower s.session_name)) sessions)).contains
                  m.session_id
              && storeIlike ("%" ++ q ++ "%") m.content) msgs) := by simpa using hc
        rcases List.mem_map.mp hmem with ⟨m, hmf, hmid⟩
        have hmm := List.mem_filter.mp hmf
        rcases (Bool.and_eq_true _ _).mp hmm.2 with ⟨hin, hlike⟩
        have hsid : s.id ∈ List.map (fun s => s.id)
            (List.filter (fun s => !pyInStr q (pyLower s.session_name)) sessions) := by
          rw [← hmid]; simpa using hin
        rcases List.mem_map.mp hsid with ⟨t, htf, htid⟩
        have hts : t = s := hinj (List.mem_of_mem_filter htf) hs htid
        subst hts
        refine ⟨(List.mem_filter.mp htf).2, ?_⟩
        rw [List.any_eq_true]
        exact ⟨m, hmm.1, by rw [Bool.and_eq_true]; exact ⟨by simpa using hmid, hlike⟩⟩
      · rintro ⟨hnp, hany⟩
        rcases List.any_eq_true.mp hany with ⟨m, hm, hcond⟩
        rcases (Bool.and_eq_true _ _).mp hcond with ⟨hmid, hlike⟩
        have hmid' : m.session_id = s.id := by simpa using hmid
        have hidin : s.id ∈ List.map (fun s => s.id)
            (List.filter (fun s => !pyInStr q (pyLower s.session_name)) sessions) :=
          List.mem_map.mpr ⟨s, List.mem_filter.mpr ⟨hs, hnp⟩, rfl⟩
        have hmF : m ∈ List.filter (fun m =>
            (List.map (fun s => s.id)
              (List.filter (fun s => !pyInStr q (pyLower s.session_name)) sessions)).contains
                m.session_id
            && storeIlike ("%" ++ q ++ "%") m.content) msgs :=
          List.mem_filter.mpr ⟨hm, by
            rw [Bool.and_eq_true]
            exact ⟨by rw [hmid']; simpa using hidin, hlike⟩⟩
        have : s.id ∈ List.map (fun m => m.session_id)
            (List.filter (fun m =>
              (List.map (fun s => s.id)
                (List.filter (fun s => !pyInStr q (pyLower s.session_name)) sessions)).contains
                  m.session_id
              && storeIlike ("%" ++ q ++ "%") m.content) msgs) :=
          List.mem_map.mpr ⟨m, hmF, hmid'⟩
        simpa using this
    have hfresh2 : ∀ s ∈ sessions,
        ((List.map (fun m => m.session_id)
          (List.filter (fun m =>
            (List.map (fun s => s.id)
              (List.filter (fun s => !pyInStr q (pyLower s.session_name)) sessions)).contains
                m.session_id
            && storeIlike ("%" ++ q ++ "%") m.content) msgs)).contains s.id) = true →
        ∀ kv ∈ (sessions.filter (fun s => pyInStr q (pyLower s.session_name))).map
          (fun s => (s.id, s)), kv.1 ≠ s.id := by
      intro s hs hp2 kv hkv heq
      rcases List.mem_map.mp hkv with ⟨t, htf, rfl⟩
      have hts : t = s := hinj (List.mem_of_mem_filter htf) hs heq
      subst hts
      rw [hE2 t hs] at hp2
      have hnp := ((Bool.and_eq_true _ _).mp hp2).1
      rw [(List.mem_filter.mp htf).2] at hnp
      exact Bool.false_ne_true (by simpa using hnp.symm)
    rw [foldl_dictInsert _ sessions _ hfresh2 (nodupOf _), List.map_append, map_snd_idPairs,
      map_snd_idPairs]
    congr 1
    exact List.filter_congr hE2

/-- C5 amended: for a non-empty query (and distinct session ids, which the
store guarantees as primary keys), `search_sessions` returns the union of
name matches and content matches, deduplicated by session id — but the
name pass compares the lowercased name against the lowercased *and
LIKE-escaped* query text (the escaping is applied once, up front, not only
where the query is embedded in the message-content pattern), so a query
containing `%`, `_` or `\` matches a name only if the name contains the
escaped text. -/
theorem c5_amended (db : DB) (user_id query : String)
    (hq : (query == "") = false)
    (hnd : ((get_user_sessions db user_id).map (fun s => s.id)).Nodup) :
    search_sessions db user_id query
      = (get_user_sessions db user_id).filter (name_matches query)
        ++ (get_user_sessions db user_id).filter
            (fun s => !(name_matches query s) && content_matches db.messages query s) ∧
    ((search_sessions db user_id query).map (fun s => s.id)).Nodup := by
  have hinj := List.inj_on_of_nodup_map hnd
  have hmain : search_sessions db user_id query
      = (get_user_sessions db user_id).filter (name_matches query)
        ++ (get_user_sessions db user_id).filter
            (fun s => !(name_matches query s) && content_matches db.messages query s) := by
    unfold search_sessions
    simp only []
    rw [if_neg (by simp [hq])]
    exact search_sessions_core_eq db.messages (get_user_sessions db user_id)
      (escape_sql_like (pyLower query)) hnd
  refine ⟨hmain, ?_⟩
  rw [hmain, List.map_append, List.nodup_append]
  refine ⟨List.Nodup.sublist (List.Sublist.map _ (List.filter_sublist _)) hnd,
    List.Nodup.sublist (List.Sublist.map _ (List.filter_sublist _)) hnd, ?_⟩
  intro a ha hb
  rcases List.mem_map.mp ha with ⟨s, hsf, rfl⟩
  rcases List.mem_map.mp hb with ⟨t, htf, htid⟩
  have hs := List.mem_filter.mp hsf
  have ht := List.mem_filter.mp htf
  have hts : t = s := hinj ht.1 hs.1 htid
  subst hts
  have hnm := ((Bool.and_eq_true _ _).mp ht.2).1
  rw [hs.2] at hnm
  exact Bool.false_ne_true (by simpa using hnm.symm)

/-- C5 amended, witnessed: user `u1` owns `Math Help` (name match) and
`Other` (whose message content matches); searching `math` returns both,
name match first, with no duplicate ids. -/
theorem c5_amended_witness :
    (("math" == "") = false) ∧
    ((get_user_sessions
        (DB.mk [SessionRow.mk "s1" "u1" "Math Help" 0 2, SessionRow.mk "s2" "u1" "Other" 0 1]
               [MessageRow.mk "m1" "s2" "user" "about MATH stuff" Option.none Option.none 1])
        "u1").map (fun s => s.id)).Nodup ∧
    (search_sessions
        (DB.mk [SessionRow.mk "s1" "u1" "Math Help" 0 2, SessionRow.mk "s2" "u1" "Other" 0 1]
               [MessageRow.mk "m1" "s2" "user" "about MATH stuff" Option.none Option.none 1])
        "u1" "math"
      = (get_user_sessions
          (DB.mk [SessionRow.mk "s1" "u1" "Math Help" 0 2, SessionRow.mk "s2" "u1" "Other" 0 1]
                 [MessageRow.mk "m1" "s2" "user" "about MATH stuff" Option.none Option.none 1])
          "u1").filter (name_matches "math")
        ++ (get_user_sessions
            (DB.mk [SessionRow.mk "s1" "u1" "Math Help" 0 2, SessionRow.mk "s2" "u1" "Other" 0 1]
                   [MessageRow.mk "m1" "s2" "user" "about MATH stuff" Option.none Option.none 1])
            "u1").filter
              (fun s => !(name_matches "math" s) &&
                content_matches
                  (DB.mk [SessionRow.mk "s1" "u1" "Math Help" 0 2,
                          SessionRow.mk "s2" "u1" "Other" 0 1]
                         [MessageRow.mk "m1" "s2" "user" "about MATH stuff"
                            Option.none Option.none 1]).messages "math" s) ∧
     ((search_sessions
        (DB.mk [SessionRow.mk "s1" "u1" "Math Help" 0 2, SessionRow.mk "s2" "u1" "Other" 0 1]
               [MessageRow.mk "m1" "s2" "user" "about MATH stuff" Option.none Option.none 1])
        "u1" "math").map (fun s => s.id)).Nodup) :=
  ⟨by decide, by decide,
   c5_amended
     (DB.mk [SessionRow.mk "s1" "u1" "Math Help" 0 2, SessionRow.mk "s2" "u1" "Other" 0 1]
            [MessageRow.mk "m1" "s2" "user" "about MATH stuff" Option.none Option.none 1])
     "u1" "math" (by decide) (by decide)⟩
